import Mathlib

/-!
# Verification of the release-note monitor core

A shallow embedding, in Lean 4, of the core pipeline of the monitor:
the rule-based severity scorer (`lib/scorer.js`), the watermark cache
(`lib/cache.js`) and the fetch/parse layer (`lib/fetchers.js`).

Strings are modelled through their `List Char` contents.  JavaScript's
`toLowerCase`, `trim`, `substring` and regular-expression operations are
modelled for the ASCII range, which covers every keyword and every string
the rules inspect.  Wall-clock timestamps (`new Date()`, `Date.now()`) are
passed in as explicit parameters or omitted where no claim depends on them.
-/

namespace Monitor

/-- JavaScript word characters, the `\w` class: `[A-Za-z0-9_]`. -/
def isWordChar (c : Char) : Bool :=
  (65 ≤ c.toNat && c.toNat ≤ 90) || (97 ≤ c.toNat && c.toNat ≤ 122) ||
  (48 ≤ c.toNat && c.toNat ≤ 57) || (c.toNat == 95)

/-- ASCII lower-casing of a string, the model of `String.toLowerCase`. -/
def jsLower (s : String) : String :=
  String.mk (s.toList.map Char.toLower)

/-- Case-sensitive "the first list starts with the pattern" test,
used to model `String.includes`. -/
def litStarts : List Char → List Char → Bool
  | [], _ => true
  | _ :: _, [] => false
  | a :: as, b :: bs => a == b && litStarts as bs

/-- `text.includes(pat)`: the pattern occurs contiguously somewhere. -/
def includesSub (t p : List Char) : Bool :=
  (List.range (t.length + 1)).any (fun i => litStarts p (t.drop i))

/-- Case-insensitive "starts with" (the `i` regex flag on a literal). -/
def ciStarts : List Char → List Char → Bool
  | [], _ => true
  | _ :: _, [] => false
  | a :: as, b :: bs => (a.toLower == b.toLower) && ciStarts as bs

/-- Is the character at index `i` a word character (`false` out of range)? -/
def wordAt (t : List Char) (i : Nat) : Bool :=
  match t.get? i with
  | some c => isWordChar c
  | none => false

/-- The regex `\b` assertion at position `i` of `t`: the word-character
status changes between the previous character and the current one
(positions outside the string count as non-word). -/
def boundary (t : List Char) (i : Nat) : Bool :=
  (if i = 0 then false else wordAt t (i - 1)) != wordAt t i

/-- The test of the regex `` \b<kw>\b `` with the `i` flag against `t`:
some start position carries a `\b`, a case-insensitive copy of the
keyword, and a `\b` after it.  (The scorer escapes regex metacharacters
in the keyword, so the keyword part always matches literally.) -/
def regexWordTest (t k : List Char) : Bool :=
  (List.range (t.length + 1)).any (fun i =>
    boundary t i && ciStarts k (t.drop i) && boundary t (i + k.length))

/-- `matchKeyword` from `lib/scorer.js`: keywords containing a hyphen or
colon use plain substring containment of the lower-cased keyword;
all others are matched with a case-insensitive word-boundary regex. -/
def matchKeyword (text keyword : String) : Bool :=
  let lowerKeyword := jsLower keyword
  if lowerKeyword.toList.any (fun c => c == '-' || c == ':') then
    includesSub text.toList lowerKeyword.toList
  else
    regexWordTest text.toList lowerKeyword.toList

/-- The four severity tiers. -/
inductive Severity where
  | critical
  | high
  | medium
  | low
deriving DecidableEq, Repr

def CRITICAL_KEYWORDS : List String :=
  ["security vulnerability", "security issue", "vulnerability", "cve-",
   "remote code execution", "certificate expir", "service disruption",
   "outage", "forced upgrade", "end-of-life", "eol imminent",
   "critical security", "zero-day", "exploit", "malicious", "data breach",
   "unauthorized access"]

def HIGH_KEYWORDS : List String :=
  ["breaking change", "breaking:", "deprecated", "deprecation", "removal",
   "removed", "required action", "action required", "must upgrade",
   "must update", "major version", "api removal", "pricing change",
   "price increase", "end of support", "migration required", "incompatible",
   "required update", "urgent"]

def MEDIUM_KEYWORDS : List String :=
  ["minor version", "new feature", "enhancement", "improvement",
   "performance", "bug fix", "known issue", "workaround",
   "recommended update", "update available", "patch", "maintenance"]

def LOW_KEYWORDS : List String :=
  ["documentation", "informational", "announce", "note", "preview",
   "beta", "alpha"]

/-- A source descriptor; only the fields the scorer reads.  The
`severityHint` is an optional severity (an absent or empty hint behaves
as `low` through `source.severityHint || 'low'`). -/
structure Source where
  id : String
  severityHint : Option Severity
deriving DecidableEq, Repr

/-- A normalized item.  `version = ""` models an absent/empty version
(both are falsy in `if (item.version)`). -/
structure Item where
  id : String
  title : String
  description : String
  url : String
  version : String
  prerelease : Bool
  source : String
  publishedAt : Int
deriving DecidableEq, Repr

structure ScoreResult where
  severity : Severity
  reasons : List String
  score : Nat
deriving DecidableEq, Repr

/-- `getSeverityScore` from `lib/scorer.js`. -/
def getSeverityScore : Severity → Nat
  | .critical => 4
  | .high => 3
  | .medium => 2
  | .low => 1

/-- The keywords of one tier that match the text (the `matches.<tier>`
arrays built by the `forEach` loops in `scoreItem`). -/
def tierMatches (text : String) (kws : List String) : List String :=
  kws.filter (fun k => matchKeyword text k)

/-- The base severity and reasons chosen by `scoreItem` before the
version/pre-release adjustments: strict tier precedence, falling back to
the source hint with reason `"default from source"`. -/
def baseScore (text : String) (source : Source) : Severity × List String :=
  let mc := tierMatches text CRITICAL_KEYWORDS
  let mh := tierMatches text HIGH_KEYWORDS
  let mm := tierMatches text MEDIUM_KEYWORDS
  let ml := tierMatches text LOW_KEYWORDS
  if 0 < mc.length then (.critical, mc)
  else if 0 < mh.length then (.high, mh)
  else if 0 < mm.length then (.medium, mm)
  else if 0 < ml.length then (.low, ml)
  else (source.severityHint.getD .low, ["default from source"])

/-- The test of `/^v?(\d+)\.0\.0/`: an optional leading `v`, one or more
digits, then the literal `.0.0` (anywhere before the end). -/
def isMajorVersion (v : String) : Bool :=
  let l := v.toList
  let l1 := match l with
    | 'v' :: rest => rest
    | _ => l
  let ds := l1.takeWhile Char.isDigit
  !ds.isEmpty && litStarts ".0.0".toList (l1.drop ds.length)

/-- The version-based adjustment of `scoreItem`: on a major-version bump,
low→medium and medium→high (critical and high unchanged), appending the
reason `"major version bump"` when a change fires. -/
def versionAdjust (isMajor : Bool) (sev : Severity) (reasons : List String) :
    Severity × List String :=
  if isMajor then
    match sev with
    | .low => (.medium, reasons ++ ["major version bump"])
    | .medium => (.high, reasons ++ ["major version bump"])
    | s => (s, reasons)
  else (sev, reasons)

/-- The pre-release adjustment of `scoreItem`: high→medium and
critical→high, appending `"pre-release (reduced severity)"`. -/
def prereleaseAdjust (pre : Bool) (sev : Severity) (reasons : List String) :
    Severity × List String :=
  if pre then
    match sev with
    | .high => (.medium, reasons ++ ["pre-release (reduced severity)"])
    | .critical => (.high, reasons ++ ["pre-release (reduced severity)"])
    | s => (s, reasons)
  else (sev, reasons)

/-- `[...new Set(reasons)]`: deduplication keeping first occurrences. -/
def dedupAux (seen : List String) : List String → List String
  | [] => []
  | a :: rest =>
    if seen.contains a then dedupAux seen rest
    else a :: dedupAux (a :: seen) rest

def dedupFirst (l : List String) : List String := dedupAux [] l

/-- `scoreItem` from `lib/scorer.js`. -/
def scoreItem (item : Item) (source : Source) : ScoreResult :=
  let text := jsLower (item.title ++ " " ++ item.description)
  let base := baseScore text source
  let v := versionAdjust (item.version != "" && isMajorVersion item.version)
    base.1 base.2
  let p := prereleaseAdjust item.prerelease v.1 v.2
  { severity := p.1, reasons := (dedupFirst p.2).take 3,
    score := getSeverityScore p.1 }

/-! ## Watermark cache (`lib/cache.js`) -/

/-- The per-source record of the persisted state.  `seenIds` is optional:
`getNewItems` guards `if (sourceState.seenIds)` before reading it. -/
structure SourceState where
  lastUpdated : String
  itemCount : Nat
  seenIds : Option (List String)
  latestItem : Option (String × String × Int)
deriving DecidableEq, Repr

/-- The persisted watermark state.  `sources` keeps the object's key
insertion order as an association list. -/
structure MonitorState where
  lastRun : Option String
  initialized : Bool
  sources : List (String × SourceState)
deriving DecidableEq, Repr

structure DiffResult where
  newItems : List Item
  isFirstRun : Bool
deriving DecidableEq, Repr

/-- `getNewItems` from `lib/cache.js`: first-run suppression, then the
filter of the batch against the union of the `seenIds` of every source
that has them. -/
def getNewItems (scoredItems : List Item) (previousState : MonitorState) :
    DiffResult :=
  if !previousState.initialized then
    { newItems := [], isFirstRun := true }
  else
    let seenIds := previousState.sources.flatMap
      (fun p => p.2.seenIds.getD [])
    { newItems := scoredItems.filter (fun item => !seenIds.contains item.id),
      isFirstRun := false }

/-- One step of building `itemsBySource`: append the item to its source's
bucket, creating the bucket at the end on first sight of the source. -/
def addToGroups (groups : List (String × List Item)) (item : Item) :
    List (String × List Item) :=
  if groups.any (fun g => g.1 == item.source) then
    groups.map (fun g =>
      if g.1 == item.source then (g.1, g.2 ++ [item]) else g)
  else
    groups ++ [(item.source, [item])]

/-- The `itemsBySource` grouping of `updateState` (JavaScript object keys
iterate in insertion order). -/
def groupBySource (items : List Item) : List (String × List Item) :=
  items.foldl addToGroups []

/-- `updateState` from `lib/cache.js`; the wall-clock timestamp
`new Date().toISOString()` is the explicit parameter `now`. -/
def updateState (now : String) (scoredItems : List Item) : MonitorState :=
  { lastRun := some now,
    initialized := true,
    sources := (groupBySource scoredItems).map (fun g =>
      (g.1,
       { lastUpdated := now,
         itemCount := g.2.length,
         seenIds := some (g.2.map (fun i => i.id)),
         latestItem := match g.2 with
           | [] => none
           | i0 :: _ => some (i0.id, i0.title, i0.publishedAt) })) }

/-! ## HTTP fetch (`lib/fetchers.js`) -/

inductive FetchErr where
  | redirectNoLocation
  | tooManyRedirects
  | httpError (status : Nat)
  | tooLarge
deriving DecidableEq, Repr

/-- One HTTP response: status, optional `Location` header, body.  The
network is modelled as a function from URL to response; the resolution
of a relative redirect target against the base URL is abstracted by
keying the server directly on the `Location` value. -/
structure HttpResponse where
  statusCode : Nat
  location : Option String
  body : String
deriving DecidableEq, Repr

/-- The recursion of `fetchUrl`: follow 301/302/307/308 while
`redirectCount < maxRedirects`, reject any other status except 200,
reject a body larger than `maxSize`, otherwise resolve with the body. -/
def fetchUrlGo (server : String → HttpResponse) (maxRedirects maxSize : Nat)
    (url : String) (redirectCount : Nat) : Except FetchErr String :=
  let res := server url
  if res.statusCode == 301 || res.statusCode == 302 ||
      res.statusCode == 307 || res.statusCode == 308 then
    match res.location with
    | none => .error .redirectNoLocation
    | some loc =>
      if h : maxRedirects ≤ redirectCount then .error .tooManyRedirects
      else fetchUrlGo server maxRedirects maxSize loc (redirectCount + 1)
  else if res.statusCode ≠ 200 then .error (.httpError res.statusCode)
  else if maxSize < res.body.length then .error .tooLarge
  else .ok res.body
termination_by maxRedirects - redirectCount
decreasing_by omega

/-- `fetchUrl`, starting with `redirectCount = 0`. -/
def fetchUrl (server : String → HttpResponse) (maxRedirects maxSize : Nat)
    (url : String) : Except FetchErr String :=
  fetchUrlGo server maxRedirects maxSize url 0

/-! ## RSS parsing (`parseRSS` in `lib/fetchers.js`)

The per-entry regex extraction is abstracted: a `RawEntry` carries the
raw captured `<title>`, `<link>`, `<pubDate>` strings and the raw
`<description>` capture; the trimming, tag stripping, entity decoding,
truncation and the keep/drop decision are modelled from the code. -/

structure RawEntry where
  title : String
  link : String
  pubDate : String
  description : String
deriving DecidableEq, Repr

/-- ASCII whitespace for the model of `String.trim`. -/
def isJsSpace (c : Char) : Bool :=
  c == ' ' || c == '\t' || c == '\n' || c == '\r' ||
  c == '\x0b' || c == '\x0c'

/-- Model of JavaScript `trim()` (ASCII whitespace). -/
def jsTrim (s : String) : String :=
  String.mk
    (((s.toList.dropWhile isJsSpace).reverse.dropWhile isJsSpace).reverse)

/-- The character class `[a-z0-9#]` with the `i` flag. -/
def isEntityChar (c : Char) : Bool :=
  ('a' ≤ c && c ≤ 'z') || ('A' ≤ c && c ≤ 'Z') ||
  ('0' ≤ c && c ≤ '9') || c == '#'

/-- The entity table of `decodeHTMLEntities`. -/
def ENTITIES : List (String × String) :=
  [("&amp;", "&"), ("&lt;", "<"), ("&gt;", ">"), ("&quot;", "\""),
   ("&#39;", "\x27"), ("&apos;", "\x27")]

/-- `entities[match] || match`. -/
def entityLookup (s : String) : String :=
  (ENTITIES.lookup s).getD s

/-- The replacement scan of `decodeHTMLEntities`: each non-overlapping
occurrence of `&[a-z0-9#]+;` (case-insensitive) is replaced through the
table, unknown entities are kept verbatim. -/
def decodeGo : List Char → List Char
  | [] => []
  | '&' :: rest =>
    let run := rest.takeWhile isEntityChar
    if run.isEmpty then '&' :: decodeGo rest
    else
      match h : rest.drop run.length with
      | ';' :: tail =>
        (entityLookup (String.mk ('&' :: (run ++ [';'])))).toList ++
          decodeGo tail
      | _ => '&' :: decodeGo rest
  | c :: rest => c :: decodeGo rest
termination_by l => l.length
decreasing_by
  all_goals simp
  all_goals have ht := congrArg List.length h
  all_goals simp [List.length_drop] at ht
  all_goals omega

def decodeHTMLEntities (s : String) : String :=
  String.mk (decodeGo s.toList)

/-- The tag-stripping replace `/<[^>]+>/g`: drop each `<`…`>` block with
a non-empty inside. -/
def stripTags : List Char → List Char
  | [] => []
  | '<' :: rest =>
    let inner := rest.takeWhile (fun c => c != '>')
    if inner.isEmpty then '<' :: stripTags rest
    else
      match h : rest.drop inner.length with
      | '>' :: tail => stripTags tail
      | _ => '<' :: stripTags rest
  | c :: rest => c :: stripTags rest
termination_by l => l.length
decreasing_by
  all_goals simp
  all_goals have ht := congrArg List.length h
  all_goals simp [List.length_drop] at ht
  all_goals omega

/-- A parsed feed item as pushed by `parseRSS` (the `date` millisecond
field is wall-clock dependent and omitted; `pubDate` is kept). -/
structure FeedItem where
  title : String
  link : String
  description : String
  pubDate : String
deriving DecidableEq, Repr

/-- The item object `parseRSS` pushes for one raw entry. -/
def mkFeedItem (e : RawEntry) : FeedItem :=
  let description :=
    jsTrim (String.mk (stripTags e.description.toList))
  { title := decodeHTMLEntities (jsTrim e.title),
    link := decodeHTMLEntities (jsTrim e.link),
    description :=
      decodeHTMLEntities (String.mk (description.toList.take 500)),
    pubDate := jsTrim e.pubDate }

/-- The extraction loop of `parseRSS`: stop at 20 kept items, keep an
entry exactly when both its trimmed title and trimmed link are
non-empty. -/
def parseRSSgo : List RawEntry → Nat → List FeedItem
  | [], _ => []
  | e :: rest, count =>
    if count < 20 then
      if jsTrim e.title != "" && jsTrim e.link != "" then
        mkFeedItem e :: parseRSSgo rest (count + 1)
      else
        parseRSSgo rest count
    else []

def parseRSS (entries : List RawEntry) : List FeedItem :=
  parseRSSgo entries 0

/-! ## Spec-side definitions

These follow the wording of the specification and are compared with the
definitions embedded from the code. -/

/-- A keyword starts and ends with a word character (true of every
keyword in the four rule tables). -/
def wordEnds (k : List Char) : Bool :=
  match k.head?, k.getLast? with
  | some a, some b => isWordChar a && isWordChar b
  | _, _ => false

/-- Spec wording for non-hyphen keywords: the keyword occurs
(case-insensitively) somewhere in the text, preceded by the start of the
text or a non-word character, and followed by the end of the text or a
non-word character. -/
def wholeWordOccurs (text kw : String) : Bool :=
  let t := text.toList
  let k := (jsLower kw).toList
  (List.range (t.length + 1)).any (fun i =>
    ciStarts k (t.drop i) &&
    (i == 0 || !wordAt t (i - 1)) &&
    (decide (t.length ≤ i + k.length) || !wordAt t (i + k.length)))

/-! ## Concrete fixtures -/

/-- No keyword of any tier matches "hello world"; major version,
hinted low. -/
def itemMajorLow : Item :=
  { id := "i1", title := "hello", description := "world", url := "",
    version := "v2.0.0", prerelease := false, source := "s",
    publishedAt := 0 }

/-- Matches the critical keyword "exploit" and is a pre-release. -/
def itemCritPre : Item :=
  { id := "i2", title := "exploit found", description := "", url := "",
    version := "", prerelease := true, source := "s", publishedAt := 0 }

def srcLowHint : Source := { id := "s", severityHint := some .low }

def srcNoHint : Source := { id := "s", severityHint := none }

def itemA : Item :=
  { id := "a", title := "t", description := "d", url := "", version := "",
    prerelease := false, source := "s1", publishedAt := 0 }

def itemB : Item :=
  { id := "b", title := "t", description := "d", url := "", version := "",
    prerelease := false, source := "s1", publishedAt := 0 }

/-- An initialized state whose only source record has no `seenIds`. -/
def stateNoSeen : MonitorState :=
  { lastRun := none, initialized := true,
    sources := [("s1", { lastUpdated := "", itemCount := 1,
                         seenIds := none, latestItem := none })] }

/-- An initialized state that has seen exactly the id "a". -/
def stateSeenA : MonitorState :=
  { lastRun := none, initialized := true,
    sources := [("s1", { lastUpdated := "", itemCount := 1,
                         seenIds := some ["a"], latestItem := none })] }

/-- A 201 Created response: 2xx but not 200. -/
def srv201 : String → HttpResponse :=
  fun _ => { statusCode := 201, location := none, body := "created" }

/-- A chain of 6 redirects `u0 → … → u6`, then a 200 at `u6`. -/
def chain6srv : String → HttpResponse := fun u =>
  if u == "u0" then { statusCode := 301, location := some "u1", body := "" }
  else if u == "u1" then { statusCode := 301, location := some "u2", body := "" }
  else if u == "u2" then { statusCode := 301, location := some "u3", body := "" }
  else if u == "u3" then { statusCode := 301, location := some "u4", body := "" }
  else if u == "u4" then { statusCode := 301, location := some "u5", body := "" }
  else if u == "u5" then { statusCode := 301, location := some "u6", body := "" }
  else { statusCode := 200, location := none, body := "done" }

/-- A chain of exactly 5 redirects `u0 → … → u5`, then a 200 at `u5`. -/
def chain5srv : String → HttpResponse := fun u =>
  if u == "u0" then { statusCode := 301, location := some "u1", body := "" }
  else if u == "u1" then { statusCode := 301, location := some "u2", body := "" }
  else if u == "u2" then { statusCode := 301, location := some "u3", body := "" }
  else if u == "u3" then { statusCode := 301, location := some "u4", body := "" }
  else if u == "u4" then { statusCode := 301, location := some "u5", body := "" }
  else { statusCode := 200, location := none, body := "done" }

/-- A feed entry with a title but no link. -/
def entryTitleOnly : RawEntry :=
  { title := "Release 1.2", link := "", pubDate := "", description := "d" }

/-- A feed entry with both title and link. -/
def entryFull : RawEntry :=
  { title := "T1", link := "http://a", pubDate := "d", description := "x" }

/-! ## Helper lemmas -/

theorem baseScore_snd_ne_nil (text : String) (source : Source) :
    (baseScore text source).2 ≠ [] := by
  unfold baseScore
  dsimp only
  split
  · next h => exact List.length_pos.mp h
  · split
    · next h => exact List.length_pos.mp h
    · split
      · next h => exact List.length_pos.mp h
      · split
        · next h => exact List.length_pos.mp h
        · simp

theorem versionAdjust_snd_ne_nil (m : Bool) (sev : Severity)
    (rs : List String) (h : rs ≠ []) : (versionAdjust m sev rs).2 ≠ [] := by
  unfold versionAdjust
  split
  · split <;> simp [h]
  · exact h

theorem prereleaseAdjust_snd_ne_nil (p : Bool) (sev : Severity)
    (rs : List String) (h : rs ≠ []) : (prereleaseAdjust p sev rs).2 ≠ [] := by
  unfold prereleaseAdjust
  split
  · split <;> simp [h]
  · exact h

theorem dedupFirst_ne_nil (l : List String) (h : l ≠ []) :
    dedupFirst l ≠ [] := by
  cases l with
  | nil => exact absurd rfl h
  | cons a rest => simp [dedupFirst, dedupAux]

theorem take3_dedup_bounds (l : List String) (h : l ≠ []) :
    1 ≤ ((dedupFirst l).take 3).length ∧
    ((dedupFirst l).take 3).length ≤ 3 := by
  have hp := List.length_pos.mpr (dedupFirst_ne_nil l h)
  constructor <;> rw [List.length_take] <;> omega

theorem contains_flatMap {α β : Type} [BEq β] (l : List α) (f : α → List β)
    (x : β) :
    (l.flatMap f).contains x = l.any (fun a => (f a).contains x) := by
  induction l with
  | nil => rfl
  | cons a rest ih =>
    simp only [List.contains_eq_any_beq] at ih ⊢
    simp only [List.flatMap_cons, List.any_append, List.any_cons, ih]

theorem mem_addToGroups_mono (gs : List (String × List Item)) (a it : Item)
    (g : String × List Item) (hg : g ∈ gs) (hit : it ∈ g.2) :
    ∃ g' ∈ addToGroups gs a, it ∈ g'.2 := by
  unfold addToGroups
  split
  · refine ⟨if g.1 == a.source then (g.1, g.2 ++ [a]) else g,
      List.mem_map.mpr ⟨g, hg, rfl⟩, ?_⟩
    split
    · exact List.mem_append_left _ hit
    · exact hit
  · exact ⟨g, List.mem_append_left _ hg, hit⟩

theorem mem_addToGroups_self (gs : List (String × List Item)) (a : Item) :
    ∃ g ∈ addToGroups gs a, a ∈ g.2 := by
  unfold addToGroups
  split
  · next hany =>
    obtain ⟨g, hg, hgs⟩ := List.any_eq_true.mp hany
    refine ⟨(g.1, g.2 ++ [a]), List.mem_map.mpr ⟨g, hg, by simp [hgs]⟩, by simp⟩
  · exact ⟨(a.source, [a]), List.mem_append_right _ (by simp), by simp⟩

theorem mem_foldl_groups (items : List Item) (gs : List (String × List Item))
    (it : Item) (h : it ∈ items ∨ ∃ g ∈ gs, it ∈ g.2) :
    ∃ g ∈ items.foldl addToGroups gs, it ∈ g.2 := by
  induction items generalizing gs with
  | nil =>
    rcases h with h | h
    · cases h
    · exact h
  | cons a rest ih =>
    rw [List.foldl_cons]
    apply ih
    rcases h with h | ⟨g, hg, hit⟩
    · rcases List.mem_cons.mp h with rfl | h2
      · right; exact mem_addToGroups_self gs it
      · left; exact h2
    · right; exact mem_addToGroups_mono gs a it g hg hit

theorem groupBySource_complete (items : List Item) (it : Item)
    (h : it ∈ items) : ∃ g ∈ groupBySource items, it ∈ g.2 :=
  mem_foldl_groups items [] it (Or.inl h)

theorem flatMap_filter_seenIds (l : List (String × SourceState)) :
    (l.filter (fun p => p.2.seenIds.isSome)).flatMap
      (fun p => p.2.seenIds.getD []) =
    l.flatMap (fun p => p.2.seenIds.getD []) := by
  induction l with
  | nil => rfl
  | cons a rest ih =>
    cases h : a.2.seenIds with
    | none => simp [List.filter_cons, h, ih]
    | some ids => simp [List.filter_cons, h, ih]

theorem char_toNat_ofNat (n : Nat) (h : n.isValidChar) :
    (Char.ofNat n).toNat = n := by
  simp [Char.ofNat, h, Char.toNat, Char.ofNatAux, UInt32.toNat,
    BitVec.toNat_ofNatLt]

theorem isWordChar_toLower (c : Char) : isWordChar c.toLower = isWordChar c := by
  unfold Char.toLower
  by_cases h : c.toNat ≥ 65 ∧ c.toNat ≤ 90
  · have hv : (c.toNat + 32).isValidChar := by left; omega
    simp only [h, and_self, if_true]
    unfold isWordChar
    rw [char_toNat_ofNat _ hv, Bool.eq_iff_iff]
    simp only [Bool.or_eq_true, Bool.and_eq_true, decide_eq_true_eq,
      beq_iff_eq]
    omega
  · simp only [h, if_false]

theorem tierMatches_pos (text : String) (kws : List String) :
    0 < (tierMatches text kws).length ↔
    kws.any (fun k => matchKeyword text k) = true := by
  unfold tierMatches
  rw [List.length_pos, Ne, List.filter_eq_nil_iff, List.any_eq_true]
  push_neg
  constructor
  · rintro ⟨k, hk, hm⟩
    exact ⟨k, hk, by simpa using hm⟩
  · rintro ⟨k, hk, hm⟩
    exact ⟨k, hk, by simpa using hm⟩

theorem ciStarts_get (k : List Char) : ∀ (l : List Char),
    ciStarts k l = true → ∀ (j : Nat) (c : Char), k.get? j = some c →
    ∃ d, l.get? j = some d ∧ d.toLower = c.toLower := by
  induction k with
  | nil =>
    intro l _ j c hj
    simp at hj
  | cons a k' ih =>
    intro l h j c hj
    cases l with
    | nil => simp [ciStarts] at h
    | cons b l' =>
      rw [ciStarts, Bool.and_eq_true] at h
      cases j with
      | zero =>
        rw [List.get?_cons_zero, Option.some.injEq] at hj
        subst hj
        exact ⟨b, rfl, (beq_iff_eq.mp h.1).symm⟩
      | succ j' =>
        exact ih l' h.2 j' c (by simpa using hj)

theorem wordAt_false_of_le (t : List Char) (j : Nat) (h : t.length ≤ j) :
    wordAt t j = false := by
  unfold wordAt
  rw [List.get?_eq_none.mpr h]

theorem boundary_eq_spec (t k : List Char) (hk : wordEnds k = true) (i : Nat) :
    (boundary t i && ciStarts k (t.drop i) && boundary t (i + k.length)) =
    (ciStarts k (t.drop i) && ((i == 0) || !wordAt t (i - 1)) &&
      (decide (t.length ≤ i + k.length) || !wordAt t (i + k.length))) := by
  by_cases hci : ciStarts k (t.drop i) = true
  case neg =>
    rw [Bool.not_eq_true] at hci
    simp [hci]
  case pos =>
    cases hh : k.head? with
    | none =>
      rw [List.head?_eq_none_iff.mp hh] at hk
      simp [wordEnds] at hk
    | some a =>
      cases hl : k.getLast? with
      | none =>
        rw [List.getLast?_eq_none_iff.mp hl] at hk
        simp [wordEnds] at hk
      | some z =>
        rw [wordEnds, hh, hl, Bool.and_eq_true] at hk
        have hget0 : k.get? 0 = some a := by
          cases k with
          | nil => simp at hh
          | cons x xs =>
            rw [List.head?_cons, Option.some.injEq] at hh
            rw [List.get?_cons_zero, hh]
        have hklen : 0 < k.length := by
          cases k with
          | nil => simp at hh
          | cons x xs => simp
        obtain ⟨d0, hd0, hd0l⟩ := ciStarts_get k (t.drop i) hci 0 a hget0
        rw [List.get?_drop] at hd0
        have hwi : wordAt t i = true := by
          unfold wordAt
          have : t.get? i = some d0 := by simpa using hd0
          rw [this]
          show isWordChar d0 = true
          rw [← isWordChar_toLower d0, hd0l, isWordChar_toLower a]
          exact hk.1
        have hgetlast : k.get? (k.length - 1) = some z := by
          rw [← List.getLast?_eq_get?, hl]
        obtain ⟨dz, hdz, hdzl⟩ :=
          ciStarts_get k (t.drop i) hci (k.length - 1) z hgetlast
        rw [List.get?_drop] at hdz
        have hwl : wordAt t (i + (k.length - 1)) = true := by
          unfold wordAt
          rw [hdz]
          show isWordChar dz = true
          rw [← isWordChar_toLower dz, hdzl, isWordChar_toLower z]
          exact hk.2
        have e1 : boundary t i = ((i == 0) || !wordAt t (i - 1)) := by
          unfold boundary
          cases i with
          | zero => simp [hwi]
          | succ n =>
            rw [hwi]
            simp
        have e2 : boundary t (i + k.length) =
            (decide (t.length ≤ i + k.length) || !wordAt t (i + k.length)) := by
          unfold boundary
          have hne : ¬ (i + k.length = 0) := by omega
          rw [if_neg hne]
          have hidx : i + k.length - 1 = i + (k.length - 1) := by omega
          rw [hidx, hwl]
          by_cases hend : t.length ≤ i + k.length
          · rw [wordAt_false_of_le t _ hend]
            simp [hend]
          · simp [hend]
        rw [hci, e1, e2]
        simp

theorem regexWordTest_eq_spec (t k : List Char) (hk : wordEnds k = true) :
    regexWordTest t k = (List.range (t.length + 1)).any (fun i =>
      ciStarts k (t.drop i) && ((i == 0) || !wordAt t (i - 1)) &&
      (decide (t.length ≤ i + k.length) || !wordAt t (i + k.length))) := by
  unfold regexWordTest
  congr 1
  funext i
  exact boundary_eq_spec t k hk i

theorem flatMap_seenIds_nil (l : List (String × SourceState))
    (hall : ∀ p ∈ l, p.2.seenIds = none) :
    l.flatMap (fun p => p.2.seenIds.getD []) = [] := by
  induction l with
  | nil => rfl
  | cons a rest ih =>
    have ha := hall a (by simp)
    rw [List.flatMap_cons, ha, ih (fun p hp => hall p (by simp [hp]))]
    rfl

end Monitor

/-- Claim C1: on an uninitialized previous state `getNewItems` returns no
items and `isFirstRun = true` for any batch; on an initialized state it
returns `isFirstRun = false` and exactly the items of the batch, in
order, whose id is in no source's `seenIds` set. -/
theorem Monitor.getNewItems_diff_spec (B : List Monitor.Item)
    (S : Monitor.MonitorState) :
    (S.initialized = false →
      Monitor.getNewItems B S = { newItems := [], isFirstRun := true })
    ∧ (S.initialized = true →
      Monitor.getNewItems B S =
        { newItems := B.filter (fun item =>
            !(S.sources.any (fun p =>
              (p.2.seenIds.getD []).contains item.id))),
          isFirstRun := false }) := by
  constructor
  · intro h
    simp [Monitor.getNewItems, h]
  · intro h
    simp only [Monitor.getNewItems, h, Bool.not_true, Bool.false_eq_true,
      if_false]
    refine congrArg (fun l => Monitor.DiffResult.mk l false) ?_
    refine List.filter_congr (fun item _ => ?_)
    refine congrArg (fun b => !b) ?_
    rw [Bool.eq_iff_iff]
    rw [List.contains_eq_any_beq, List.any_eq_true, List.any_eq_true]
    constructor
    · rintro ⟨x, hx, hbeq⟩
      obtain ⟨p, hp, hxp⟩ := List.mem_flatMap.mp hx
      refine ⟨p, hp, ?_⟩
      rw [List.contains_eq_any_beq, List.any_eq_true]
      exact ⟨x, hxp, hbeq⟩
    · rintro ⟨p, hp, hc⟩
      rw [List.contains_eq_any_beq, List.any_eq_true] at hc
      obtain ⟨x, hxp, hbeq⟩ := hc
      exact ⟨x, List.mem_flatMap.mpr ⟨p, hp, hxp⟩, hbeq⟩

/-- Witness for C1 at a concrete batch and state. -/
theorem Monitor.getNewItems_diff_spec_witness :
    Monitor.stateSeenA.initialized = true ∧
    Monitor.getNewItems [Monitor.itemA, Monitor.itemB] Monitor.stateSeenA =
      { newItems := [Monitor.itemA, Monitor.itemB].filter (fun item =>
          !(Monitor.stateSeenA.sources.any (fun p =>
            (p.2.seenIds.getD []).contains item.id))),
        isFirstRun := false } :=
  ⟨rfl, (Monitor.getNewItems_diff_spec [Monitor.itemA, Monitor.itemB]
    Monitor.stateSeenA).2 rfl⟩

/-- Claim C2: diffing a batch against the snapshot built from that very
batch yields no new items and `isFirstRun = false`. -/
theorem Monitor.updateState_roundTrip (now : String)
    (B : List Monitor.Item) :
    Monitor.getNewItems B (Monitor.updateState now B) =
      { newItems := [], isFirstRun := false } := by
  unfold Monitor.getNewItems Monitor.updateState
  simp only [Bool.not_true, Bool.false_eq_true, if_false,
    Monitor.DiffResult.mk.injEq, and_true, List.flatMap_map]
  rw [List.filter_eq_nil_iff]
  intro it hit
  obtain ⟨g, hg, hitg⟩ := Monitor.groupBySource_complete B it hit
  simp
  exact ⟨g.1, g.2, by simpa using hg, ⟨it, hitg, rfl⟩⟩

/-- Claim C10: `getNewItems` ignores source records that lack a
`seenIds` field (removing them changes nothing), and on an initialized
state where no source has `seenIds` the whole batch is new. -/
theorem Monitor.getNewItems_missing_seenIds (B : List Monitor.Item)
    (S : Monitor.MonitorState) :
    Monitor.getNewItems B S =
      Monitor.getNewItems B
        { lastRun := S.lastRun, initialized := S.initialized,
          sources := S.sources.filter (fun p => p.2.seenIds.isSome) }
    ∧ (S.initialized = true →
      (∀ p ∈ S.sources, p.2.seenIds = none) →
      Monitor.getNewItems B S = { newItems := B, isFirstRun := false }) := by
  constructor
  · by_cases hi : S.initialized <;>
      simp [Monitor.getNewItems, hi, Monitor.flatMap_filter_seenIds]
  · intro hi hall
    have hempty := Monitor.flatMap_seenIds_nil S.sources hall
    simp [Monitor.getNewItems, hi, hempty]

/-- Witness for C10: an initialized state whose only source record has
no `seenIds` reports the whole batch as new. -/
theorem Monitor.getNewItems_missing_seenIds_witness :
    Monitor.getNewItems [Monitor.itemA] Monitor.stateNoSeen =
      { newItems := [Monitor.itemA], isFirstRun := false } :=
  (Monitor.getNewItems_missing_seenIds [Monitor.itemA]
    Monitor.stateNoSeen).2 rfl (by decide)

/-- Counterexample for C6: a 201 response is a 2xx terminal response,
yet `fetchUrl` rejects it with an HTTP-status error instead of
resolving with its body. -/
theorem Monitor.fetchUrl_201_cex :
    200 ≤ 201 ∧ 201 < 300 ∧
    Monitor.fetchUrl Monitor.srv201 5 1000 "u" =
      .error (.httpError 201) := by
  refine ⟨by decide, by decide, ?_⟩
  simp [Monitor.fetchUrl, Monitor.fetchUrlGo, Monitor.srv201]

/-- Claim C6 as amended: for a terminal (non-redirect-status) response,
`fetchUrl` fails with an HTTP-status error for any status other than
exactly 200, and resolves with the body exactly for status 200 (subject
to the size cap). -/
theorem Monitor.fetchUrl_status_spec (server : String → Monitor.HttpResponse)
    (mr ms rc : Nat) (url : String)
    (hred : (server url).statusCode ∉ ([301, 302, 307, 308] : List Nat)) :
    ((server url).statusCode ≠ 200 →
      Monitor.fetchUrlGo server mr ms url rc =
        .error (.httpError (server url).statusCode))
    ∧ ((server url).statusCode = 200 → (server url).body.length ≤ ms →
      Monitor.fetchUrlGo server mr ms url rc = .ok (server url).body) := by
  simp only [List.mem_cons, List.not_mem_nil, or_false, not_or] at hred
  obtain ⟨h1, h2, h3, h4⟩ := hred
  rw [Monitor.fetchUrlGo]
  constructor
  · intro h200
    simp [h1, h2, h3, h4, h200]
  · intro h200 hsize
    simp [h1, h2, h3, h4, h200, Nat.not_lt.mpr hsize]

/-- Witness for C6's amended theorem at the 201 server. -/
theorem Monitor.fetchUrl_status_spec_witness :
    (Monitor.srv201 "u").statusCode ∉ ([301, 302, 307, 308] : List Nat) ∧
    Monitor.fetchUrlGo Monitor.srv201 5 1000 "u" 0 =
      .error (.httpError (Monitor.srv201 "u").statusCode) :=
  ⟨by decide,
   (Monitor.fetchUrl_status_spec Monitor.srv201 5 1000 0 "u" (by decide)).1
     (by decide)⟩

/-- Claim C7: with `maxRedirects = 5` a chain of 6 redirects fails with
the too-many-redirects error, while a chain of exactly 5 redirects
ending in a 200 succeeds with the final body. -/
theorem Monitor.fetchUrl_redirect_cap :
    Monitor.fetchUrl Monitor.chain6srv 5 1000 "u0" =
      .error .tooManyRedirects ∧
    Monitor.fetchUrl Monitor.chain5srv 5 1000 "u0" = .ok "done" := by
  constructor <;>
    simp [Monitor.fetchUrl, Monitor.fetchUrlGo, Monitor.chain6srv,
      Monitor.chain5srv] <;>
    decide

/-- Counterexample for C8: an entry with a title but no link is dropped
by `parseRSS`, although it has at least one of title and link. -/
theorem Monitor.parseRSS_titleOnly_cex :
    Monitor.jsTrim Monitor.entryTitleOnly.title ≠ "" ∧
    Monitor.parseRSS [Monitor.entryTitleOnly] = [] := by
  exact ⟨by decide, by decide⟩

/-- Claim C8 as amended: below the 20-entry cap, an entry is dropped
exactly when its trimmed title or its trimmed link is empty — it is
kept only when both are present — and the loop stops at 20 kept
entries. -/
theorem Monitor.parseRSS_keep_spec (rest : List Monitor.RawEntry)
    (e : Monitor.RawEntry) (count : Nat) (hc : count < 20) :
    ((Monitor.jsTrim e.title = "" ∨ Monitor.jsTrim e.link = "") →
      Monitor.parseRSSgo (e :: rest) count = Monitor.parseRSSgo rest count)
    ∧ (Monitor.jsTrim e.title ≠ "" → Monitor.jsTrim e.link ≠ "" →
      Monitor.parseRSSgo (e :: rest) count =
        Monitor.mkFeedItem e :: Monitor.parseRSSgo rest (count + 1))
    ∧ Monitor.parseRSSgo (e :: rest) 20 = [] := by
  refine ⟨?_, ?_, by simp [Monitor.parseRSSgo]⟩
  · rintro (h | h) <;> simp [Monitor.parseRSSgo, hc, h]
  · intro h1 h2
    simp [Monitor.parseRSSgo, hc, h1, h2]

/-- Claim C4: a keyword containing a hyphen or colon matches exactly
when its lowercased form is a plain substring of the text; every other
keyword (all of which, like every keyword in the rule tables, begins and
ends with a word character) matches exactly when it occurs at
case-insensitive whole-word boundaries; "rce" does not match
"resource allocation" and "zero-day" matches "a zero-day exploit". -/
theorem Monitor.matchKeyword_spec :
    (∀ text kw : String,
      Monitor.wordEnds ((Monitor.jsLower kw).toList) = true →
      Monitor.matchKeyword text kw =
        if (Monitor.jsLower kw).toList.any (fun c => c == '-' || c == ':') then
          Monitor.includesSub text.toList (Monitor.jsLower kw).toList
        else Monitor.wholeWordOccurs text kw)
    ∧ (Monitor.CRITICAL_KEYWORDS ++ Monitor.HIGH_KEYWORDS ++
        Monitor.MEDIUM_KEYWORDS ++ Monitor.LOW_KEYWORDS).all
        (fun k =>
          (Monitor.jsLower k).toList.any (fun c => c == '-' || c == ':') ||
          Monitor.wordEnds ((Monitor.jsLower k).toList)) = true
    ∧ Monitor.matchKeyword "resource allocation" "rce" = false
    ∧ Monitor.matchKeyword "a zero-day exploit" "zero-day" = true := by
  refine ⟨?_, by decide, by decide, by decide⟩
  intro text kw hk
  unfold Monitor.matchKeyword Monitor.wholeWordOccurs
  dsimp only
  by_cases hc :
      ((Monitor.jsLower kw).toList.any fun c => c == '-' || c == ':') = true
  · rw [if_pos hc, if_pos hc]
  · rw [if_neg hc, if_neg hc]
    exact Monitor.regexWordTest_eq_spec _ _ hk

/-- Witness for C4 at a concrete text and keyword. -/
theorem Monitor.matchKeyword_spec_witness :
    Monitor.wordEnds ((Monitor.jsLower "urgent").toList) = true ∧
    Monitor.matchKeyword "an urgent fix" "urgent" =
      if (Monitor.jsLower "urgent").toList.any
          (fun c => c == '-' || c == ':') then
        Monitor.includesSub "an urgent fix".toList
          (Monitor.jsLower "urgent").toList
      else Monitor.wholeWordOccurs "an urgent fix" "urgent" :=
  ⟨by decide, Monitor.matchKeyword_spec.1 "an urgent fix" "urgent" (by decide)⟩

/-- Claim C3: the base severity follows strict tier precedence —
critical, else high, else medium, else low — over matches of the
lowercased title+description, falling back to the source's hint (or low
when unset) with reason "default from source" when no tier matches; for
an item with no version and not a pre-release this base severity is the
severity `scoreItem` returns. -/
theorem Monitor.scoreItem_base_severity (item : Monitor.Item)
    (source : Monitor.Source) :
    let text := Monitor.jsLower (item.title ++ " " ++ item.description)
    ((Monitor.baseScore text source).1 =
      (if Monitor.CRITICAL_KEYWORDS.any (fun k => Monitor.matchKeyword text k)
        then Monitor.Severity.critical
       else if Monitor.HIGH_KEYWORDS.any (fun k => Monitor.matchKeyword text k)
        then Monitor.Severity.high
       else if Monitor.MEDIUM_KEYWORDS.any
          (fun k => Monitor.matchKeyword text k)
        then Monitor.Severity.medium
       else if Monitor.LOW_KEYWORDS.any (fun k => Monitor.matchKeyword text k)
        then Monitor.Severity.low
       else source.severityHint.getD Monitor.Severity.low))
    ∧ ((Monitor.CRITICAL_KEYWORDS ++ Monitor.HIGH_KEYWORDS ++
        Monitor.MEDIUM_KEYWORDS ++ Monitor.LOW_KEYWORDS).any
          (fun k => Monitor.matchKeyword text k) = false →
      Monitor.baseScore text source =
        (source.severityHint.getD Monitor.Severity.low,
         ["default from source"]))
    ∧ (item.version = "" → item.prerelease = false →
      (Monitor.scoreItem item source).severity =
        (Monitor.baseScore text source).1) := by
  intro text
  refine ⟨?_, ?_, ?_⟩
  · by_cases h1 :
        Monitor.CRITICAL_KEYWORDS.any (fun k => Monitor.matchKeyword text k) =
          true
    · simp [Monitor.baseScore, Monitor.tierMatches_pos, h1]
    · by_cases h2 :
          Monitor.HIGH_KEYWORDS.any (fun k => Monitor.matchKeyword text k) =
            true
      · simp [Monitor.baseScore, Monitor.tierMatches_pos, h1, h2]
      · by_cases h3 :
            Monitor.MEDIUM_KEYWORDS.any
              (fun k => Monitor.matchKeyword text k) = true
        · simp [Monitor.baseScore, Monitor.tierMatches_pos, h1, h2, h3]
        · by_cases h4 :
              Monitor.LOW_KEYWORDS.any
                (fun k => Monitor.matchKeyword text k) = true
          · simp [Monitor.baseScore, Monitor.tierMatches_pos, h1, h2, h3, h4]
          · simp [Monitor.baseScore, Monitor.tierMatches_pos, h1, h2, h3, h4]
  · intro hnone
    simp only [List.any_append, Bool.or_eq_false_iff] at hnone
    obtain ⟨⟨⟨hn1, hn2⟩, hn3⟩, hn4⟩ := hnone
    simp [Monitor.baseScore, Monitor.tierMatches_pos, hn1, hn2, hn3, hn4]
  · intro hv hp
    simp [Monitor.scoreItem, hv, hp, Monitor.versionAdjust,
      Monitor.prereleaseAdjust]

/-- Witness for C3 at a concrete item and source. -/
theorem Monitor.scoreItem_base_severity_witness :
    ((Monitor.CRITICAL_KEYWORDS ++ Monitor.HIGH_KEYWORDS ++
        Monitor.MEDIUM_KEYWORDS ++ Monitor.LOW_KEYWORDS).any
      (fun k => Monitor.matchKeyword
        (Monitor.jsLower
          (Monitor.itemMajorLow.title ++ " " ++
            Monitor.itemMajorLow.description)) k) = false) ∧
    Monitor.baseScore
        (Monitor.jsLower
          (Monitor.itemMajorLow.title ++ " " ++
            Monitor.itemMajorLow.description)) Monitor.srcLowHint =
      (Monitor.srcLowHint.severityHint.getD Monitor.Severity.low,
       ["default from source"]) :=
  ⟨by decide,
   (Monitor.scoreItem_base_severity Monitor.itemMajorLow
     Monitor.srcLowHint).2.1 (by decide)⟩

/-- Witness for C8's amended theorem at concrete entries. -/
theorem Monitor.parseRSS_keep_spec_witness :
    Monitor.jsTrim Monitor.entryFull.title ≠ "" ∧
    Monitor.jsTrim Monitor.entryFull.link ≠ "" ∧
    Monitor.parseRSSgo [Monitor.entryFull, Monitor.entryTitleOnly] 0 =
      Monitor.mkFeedItem Monitor.entryFull ::
        Monitor.parseRSSgo [Monitor.entryTitleOnly] 1 :=
  ⟨by decide, by decide,
   (Monitor.parseRSS_keep_spec [Monitor.entryTitleOnly] Monitor.entryFull 0
     (by decide)).2.1 (by decide) (by decide)⟩

/-- Claim C5: the version adjustment escalates exactly one tier
(low→medium, medium→high; critical and high unchanged), the pre-release
adjustment de-escalates exactly one tier (critical→high, high→medium;
medium and low unchanged); consequently an unmatched item with hint low
and version "v2.0.0" scores medium, and a critical-keyword pre-release
item scores exactly high. -/
theorem Monitor.scoreItem_adjustments :
    (∀ (sev : Monitor.Severity) (rs : List String),
      (Monitor.versionAdjust true sev rs).1 =
        match sev with
        | .low => .medium
        | .medium => .high
        | .high => .high
        | .critical => .critical)
    ∧ (∀ (sev : Monitor.Severity) (rs : List String),
      (Monitor.prereleaseAdjust true sev rs).1 =
        match sev with
        | .critical => .high
        | .high => .medium
        | .medium => .medium
        | .low => .low)
    ∧ Monitor.isMajorVersion "v2.0.0" = true
    ∧ (Monitor.scoreItem Monitor.itemMajorLow Monitor.srcLowHint).severity =
        .medium
    ∧ (Monitor.scoreItem Monitor.itemCritPre Monitor.srcNoHint).severity =
        .high := by
  refine ⟨?_, ?_, by decide, by decide, by decide⟩
  · intro sev rs; cases sev <;> rfl
  · intro sev rs; cases sev <;> rfl

/-- Claim C9: the reasons list returned by `scoreItem` is never empty
and holds at most 3 entries. -/
theorem Monitor.scoreItem_reasons_bounds (item : Monitor.Item)
    (source : Monitor.Source) :
    1 ≤ (Monitor.scoreItem item source).reasons.length ∧
    (Monitor.scoreItem item source).reasons.length ≤ 3 := by
  unfold Monitor.scoreItem
  dsimp only
  exact Monitor.take3_dedup_bounds _
    (Monitor.prereleaseAdjust_snd_ne_nil _ _ _
      (Monitor.versionAdjust_snd_ne_nil _ _ _
        (Monitor.baseScore_snd_ne_nil _ _)))
